import Mathlib

/-!
Shallow embedding of `src/proto/arduino/lin_decoder.cpp` (repository
`amet/linbus`): a LIN-bus frame decoder driven by a periodic timer ISR.

The ISR-side state machine (break detection, bit/byte assembly, ring buffer
of frame slots, hand-off slot for the consumer, sticky error flag) is
modelled as a pure step function on an explicit state record.  One
invocation of the timer ISR consumes one `IsrInput`: the RX line level
sampled at the start of the invocation, plus the outcomes of the bounded
busy-wait loops the invocation may perform (the environment decides those
outcomes, so they are inputs to the step).  Hardware register writes
(`resetTimer`, `setTimerToHalfTick`, debug LEDs, pin setup) only affect
timing, not the decoder state, and have no counterpart in the state record.
-/

namespace lin_decoder

/-- `RxFrameBuffer::kMaxBytes` (lin_decoder.h): 1 sync + 1 id + up to 8 data
+ 1 checksum byte. -/
def kMaxBytes : Nat := 11

/-- A buffer for a single received frame (`RxFrameBuffer`, lin_decoder.h).
`bytes` models the fixed `uint8 bytes[kMaxBytes]` array as a length-11 list. -/
structure RxFrameBuffer where
  num_bytes : Nat
  bytes : List Nat
deriving DecidableEq

/-- Frame buffer queue size (`kMaxFrameBuffers`). -/
def kMaxFrameBuffers : Nat := 8

/-- The receiver state enum (`DETECT_BREAK` / `READ_DATA`). -/
inductive MachineState where
  | DETECT_BREAK
  | READ_DATA
deriving DecidableEq

/-- The whole mutable state of the `lin_decoder` namespace: the ISR/main
transfer buffer, the ring buffer with its indices, the state-machine
variables of both states, and the error flag.  All counters are `uint8` in
the source; they are modelled as `Nat` because every one of them provably
stays far below 256 (the bit mask, which genuinely wraps, is reduced mod 256
where it is shifted). -/
structure DecoderState where
  request_buffer_has_data : Bool
  request_buffer : RxFrameBuffer
  rx_frame_buffers : Nat → RxFrameBuffer
  head_frame_buffer : Nat
  tail_frame_buffer : Nat
  state : MachineState
  low_bits_counter : Nat
  bytes_read : Nat
  bits_read_in_byte : Nat
  byte_buffer : Nat
  byte_buffer_bit_mask : Nat
  error_flag : Bool

/-- The input consumed by one ISR invocation: the sampled RX level and the
results the environment would give to the busy-wait loops, were they run in
this invocation. -/
structure IsrInput where
  rxHigh : Bool
  waitLowOk : Bool
  waitHighOk : Bool
deriving DecidableEq

/-- `setErrorFlag()`. -/
def setErrorFlag (s : DecoderState) : DecoderState :=
  { s with error_flag := true }

/-- `hasErrors()`. -/
def hasErrors (s : DecoderState) : Bool :=
  s.error_flag

/-- `clearErrors()`. -/
def clearErrors (s : DecoderState) : DecoderState :=
  { s with error_flag := false }

/-- `initBuffers()`. -/
def initBuffers (s : DecoderState) : DecoderState :=
  { s with head_frame_buffer := 0
           tail_frame_buffer := 0
           request_buffer_has_data := false
           request_buffer := { s.request_buffer with num_bytes := 0 } }

/-- `incrementTailFrameBuffer()`: `if (++tail >= kMaxFrameBuffers) tail = 0`. -/
def incrementTailFrameBuffer (s : DecoderState) : DecoderState :=
  { s with tail_frame_buffer :=
      if s.tail_frame_buffer + 1 ≥ kMaxFrameBuffers then 0
      else s.tail_frame_buffer + 1 }

/-- `incrementHeadFrameBuffer()`: `if (++head >= kMaxFrameBuffers) head = 0`. -/
def incrementHeadFrameBuffer (s : DecoderState) : DecoderState :=
  { s with head_frame_buffer :=
      if s.head_frame_buffer + 1 ≥ kMaxFrameBuffers then 0
      else s.head_frame_buffer + 1 }

/-- `StateDetectBreak::enter()`. -/
def stateDetectBreakEnter (s : DecoderState) : DecoderState :=
  { s with state := .DETECT_BREAK, low_bits_counter := 0 }

/-- `StateReadData::enter()`: resets the byte and bit counters, clears the
byte count of the ring-buffer slot at `head`, then busy-waits
(`waitForRxLow(255)`) for the first start bit — the wait's outcome is
discarded by the source — and retimes the timer (timing only). -/
def stateReadDataEnter (s : DecoderState) : DecoderState :=
  let s1 := { s with state := MachineState.READ_DATA
                     bytes_read := 0
                     bits_read_in_byte := 0 }
  { s1 with rx_frame_buffers := fun k =>
      if k = s1.head_frame_buffer then { s1.rx_frame_buffers k with num_bytes := 0 }
      else s1.rx_frame_buffers k }

/-- `StateDetectBreak::handle_isr()`.  On the 10th consecutive low sample it
calls `waitForRxHigh(255)` — the source ignores the returned value
(`i.waitHighOk` is unused) — and enters data reading. -/
def stateDetectBreakHandleIsr (s : DecoderState) (i : IsrInput) : DecoderState :=
  if i.rxHigh then { s with low_bits_counter := 0 }
  else
    let s1 := { s with low_bits_counter := s.low_bits_counter + 1 }
    if s1.low_bits_counter < 10 then s1
    else stateReadDataEnter s1

/-- The byte append at lin_decoder.cpp:388:
`frame_buffer->bytes[frame_buffer->num_bytes++] = byte_buffer_`.
The array write is in bounds whenever `fb.num_bytes < 11` (claim C9). -/
def appendByte (fb : RxFrameBuffer) (v : Nat) : RxFrameBuffer :=
  { num_bytes := fb.num_bytes + 1, bytes := fb.bytes.set fb.num_bytes v }

/-- `StateReadData::handle_isr()`.  The post-byte start-bit busy wait
`waitForRxLow(kClockTicksPerBit * 4)` yields `has_more_bytes`; its outcome
is the `waitLowOk` component of the input. -/
def stateReadDataHandleIsr (s : DecoderState) (i : IsrInput) : DecoderState :=
  let is_rx_high := i.rxHigh
  if s.bits_read_in_byte = 0 then
    if is_rx_high then stateDetectBreakEnter (setErrorFlag s)
    else { s with bits_read_in_byte := s.bits_read_in_byte + 1
                  byte_buffer := 0
                  byte_buffer_bit_mask := 1 }
  else if s.bits_read_in_byte ≤ 8 then
    { s with byte_buffer :=
        if is_rx_high then s.byte_buffer ||| s.byte_buffer_bit_mask else s.byte_buffer
             byte_buffer_bit_mask := (s.byte_buffer_bit_mask <<< 1) % 256
             bits_read_in_byte := s.bits_read_in_byte + 1 }
  else if is_rx_high = false then stateDetectBreakEnter (setErrorFlag s)
  else
    let s1 := { s with
      rx_frame_buffers := fun k =>
        if k = s.head_frame_buffer then
          appendByte (s.rx_frame_buffers s.head_frame_buffer) s.byte_buffer
        else s.rx_frame_buffers k
      bytes_read := s.bytes_read + 1
      bits_read_in_byte := 0 }
    let has_more_bytes := i.waitLowOk
    if has_more_bytes = false then
      if s1.bytes_read < 4 then stateDetectBreakEnter (setErrorFlag s1)
      else
        let s2 := incrementHeadFrameBuffer s1
        let s3 := if s2.tail_frame_buffer = s2.head_frame_buffer then
                    incrementTailFrameBuffer (setErrorFlag s2)
                  else s2
        stateDetectBreakEnter s3
    else if (s1.rx_frame_buffers s1.head_frame_buffer).num_bytes ≥ kMaxBytes then
      stateDetectBreakEnter (setErrorFlag s1)
    else s1

/-- `maybeServiceRxRequest()`. -/
def maybeServiceRxRequest (s : DecoderState) : DecoderState :=
  if s.request_buffer_has_data = false ∧ s.tail_frame_buffer ≠ s.head_frame_buffer then
    incrementTailFrameBuffer
      { s with request_buffer := s.rx_frame_buffers s.tail_frame_buffer
               request_buffer_has_data := true }
  else s

/-- The body of `ISR(TIMER2_COMPA_vect)` before `maybeServiceRxRequest`:
dispatch on the current state. -/
def isrBody (s : DecoderState) (i : IsrInput) : DecoderState :=
  match s.state with
  | .DETECT_BREAK => stateDetectBreakHandleIsr s i
  | .READ_DATA => stateReadDataHandleIsr s i

/-- One full invocation of `ISR(TIMER2_COMPA_vect)`: the state dispatch
followed by exactly one `maybeServiceRxRequest()` attempt. -/
def isr (s : DecoderState) (i : IsrInput) : DecoderState :=
  maybeServiceRxRequest (isrBody s i)

/-- Iterated ISR invocations over a list of inputs. -/
def run (s : DecoderState) (inps : List IsrInput) : DecoderState :=
  inps.foldl isr s

/-- Iterated bare `StateReadData::handle_isr` invocations (the FrameReader
step on its own). -/
def runReadData (s : DecoderState) (inps : List IsrInput) : DecoderState :=
  inps.foldl stateReadDataHandleIsr s

/-- `readNextFrame(RxFrameBuffer*)`: the returned `Option` models the
written `*buffer` (`none` = returned false, caller buffer untouched). -/
def readNextFrame (s : DecoderState) : Option RxFrameBuffer × DecoderState :=
  if s.request_buffer_has_data then
    (some s.request_buffer, { s with request_buffer_has_data := false })
  else (none, s)

/-- `init()` (pin and timer setup omitted: hardware only). -/
def init (s : DecoderState) : DecoderState :=
  clearErrors (stateDetectBreakEnter (initBuffers s))

/-- The zero-initialized C++ statics before `init()` runs. -/
def initialState : DecoderState :=
  { request_buffer_has_data := false
    request_buffer := ⟨0, List.replicate 11 0⟩
    rx_frame_buffers := fun _ => ⟨0, List.replicate 11 0⟩
    head_frame_buffer := 0
    tail_frame_buffer := 0
    state := .DETECT_BREAK
    low_bits_counter := 0
    bytes_read := 0
    bits_read_in_byte := 0
    byte_buffer := 0
    byte_buffer_bit_mask := 0
    error_flag := false }

/-- One observation available to a busy-wait loop iteration: the sampled RX
level and the elapsed hardware clock ticks since the wait began
(`clock::hardware_ticks_mod_16_bit() - base_clock`). -/
structure WaitObs where
  rxHigh : Bool
  clockDiff : Nat

/-- `waitForRxLow(maxClockTicks)` over an explicit trace of observations:
returns `some true` when RX is seen low, `some false` when the elapsed tick
count reaches the timeout first, `none` if the trace runs out before either
(impossible on hardware, where the clock keeps advancing). -/
def waitForRxLow : List WaitObs → Nat → Option Bool
  | [], _ => none
  | o :: rest, maxClockTicks =>
    if o.rxHigh = false then some true
    else if o.clockDiff ≥ maxClockTicks then some false
    else waitForRxLow rest maxClockTicks

/-- `waitForRxHigh(maxClockTicks)`, the reversed-polarity clone. -/
def waitForRxHigh : List WaitObs → Nat → Option Bool
  | [], _ => none
  | o :: rest, maxClockTicks =>
    if o.rxHigh = true then some true
    else if o.clockDiff ≥ maxClockTicks then some false
    else waitForRxHigh rest maxClockTicks

end lin_decoder

namespace lin_decoder

/-! ### Derived notions used by the claims -/

/-- Number of frames currently queued in the ring buffer (slots from `tail`
up to, excluding, `head`). -/
def queueLen (s : DecoderState) : Nat :=
  (s.head_frame_buffer + 8 - s.tail_frame_buffer) % 8

/-- The queued frames, oldest first. -/
def queueList (s : DecoderState) : List RxFrameBuffer :=
  (List.range (queueLen s)).map fun k =>
    s.rx_frame_buffers ((s.tail_frame_buffer + k) % 8)

/-- The five anomalies of the spec, as conditions on a data-reading state
and the ISR input that hits them: start-bit violation, stop-bit violation,
byte-capacity overflow, frame-too-short, queue overrun. -/
def anomalyInput (s : DecoderState) (i : IsrInput) : Prop :=
  s.state = .READ_DATA ∧
  ((s.bits_read_in_byte = 0 ∧ i.rxHigh = true) ∨
   (9 ≤ s.bits_read_in_byte ∧ i.rxHigh = false) ∨
   (9 ≤ s.bits_read_in_byte ∧ i.rxHigh = true ∧ i.waitLowOk = true ∧
     kMaxBytes ≤ (s.rx_frame_buffers s.head_frame_buffer).num_bytes + 1) ∨
   (9 ≤ s.bits_read_in_byte ∧ i.rxHigh = true ∧ i.waitLowOk = false ∧
     s.bytes_read + 1 < 4) ∨
   (9 ≤ s.bits_read_in_byte ∧ i.rxHigh = true ∧ i.waitLowOk = false ∧
     4 ≤ s.bytes_read + 1 ∧
     (if s.head_frame_buffer + 1 ≥ kMaxFrameBuffers then 0
      else s.head_frame_buffer + 1) = s.tail_frame_buffer))

/-- The condition under which one ISR invocation completes a frame and
enqueues it: stop bit sampled high, the post-byte wait times out, and the
frame (byte count after the final append) has at least 4 bytes. -/
def completesFrameInput (s : DecoderState) (i : IsrInput) : Prop :=
  s.state = .READ_DATA ∧ 9 ≤ s.bits_read_in_byte ∧ i.rxHigh = true ∧
  i.waitLowOk = false ∧ 4 ≤ s.bytes_read + 1

/-- The 10 line levels of one serial byte: low start bit, the 8 bits of `b`
least-significant first (high sample = 1 bit), high stop bit. -/
def byteSamples (b : Nat) : List Bool :=
  false :: (((List.range 8).map fun j => b.testBit j) ++ [true])

/-- `byteSamples b` lifted to ISR inputs, with fixed busy-wait outcomes. -/
def byteInputs (b : Nat) (wl wh : Bool) : List IsrInput :=
  (byteSamples b).map fun r => ⟨r, wl, wh⟩

/-- `lowRunOk c samples = true` iff feeding `samples` to a consecutive-low
counter that starts at `c` (reset on a high sample, incremented on a low
one) never reaches the break threshold 10.  For `c = 0` this says the
sample sequence contains no run of 10 consecutive low samples. -/
def lowRunOk : Nat → List Bool → Bool
  | _, [] => true
  | _, true :: rest => lowRunOk 0 rest
  | c, false :: rest => decide (c + 1 < 10) && lowRunOk (c + 1) rest

/-- States reachable from power-on (`init()` over the zero-initialized
statics) by any interleaving of ISR invocations and the consumer-side API
(`readNextFrame`, `clearErrors`). -/
inductive Reachable : DecoderState → Prop where
  | base : Reachable (init initialState)
  | isr_step {s : DecoderState} (hs : Reachable s) (i : IsrInput) : Reachable (isr s i)
  | read_step {s : DecoderState} (hs : Reachable s) : Reachable (readNextFrame s).2
  | clear_step {s : DecoderState} (hs : Reachable s) : Reachable (clearErrors s)

/-- The slot-capacity invariant: every frame slot (ring slots and the
hand-off slot) holds at most 11 bytes in an 11-entry array, and while data
reception is in progress the slot being filled has room for one more byte. -/
def SlotInv (s : DecoderState) : Prop :=
  (∀ k, (s.rx_frame_buffers k).num_bytes ≤ 11 ∧ (s.rx_frame_buffers k).bytes.length = 11) ∧
  s.request_buffer.num_bytes ≤ 11 ∧ s.request_buffer.bytes.length = 11 ∧
  (s.state = .READ_DATA → (s.rx_frame_buffers s.head_frame_buffer).num_bytes ≤ 10)

/-! ### Concrete states used by witnesses and counterexamples -/

/-- An idle data-reading state at bit position 0 (as left by
`StateReadData::enter`). -/
def exReadData : DecoderState :=
  { initialState with state := .READ_DATA }

/-- A state with one frame queued (slot 0) and an empty hand-off slot. -/
def exQueueOne : DecoderState :=
  { initialState with head_frame_buffer := 1 }

/-- A data-reading state sampling the stop bit of the 4th byte of a frame,
with an empty queue and an empty hand-off slot. -/
def exFrameEnd : DecoderState :=
  { initialState with
      state := .READ_DATA
      bits_read_in_byte := 9
      bytes_read := 3
      byte_buffer := 165
      rx_frame_buffers := fun _ => ⟨3, List.replicate 11 0⟩ }

/-- A data-reading state sampling the stop bit of the 4th byte while the
ring buffer is full (7 queued frames, pairwise distinct in their first
byte) and the hand-off slot is occupied. -/
def exFull : DecoderState :=
  { initialState with
      state := .READ_DATA
      bits_read_in_byte := 9
      bytes_read := 3
      byte_buffer := 165
      head_frame_buffer := 7
      tail_frame_buffer := 0
      request_buffer_has_data := true
      rx_frame_buffers := fun k => ⟨4, (List.replicate 11 0).set 0 k⟩ }

/-- A data-reading state whose inter-byte wait is about to time out after
only 3 bytes. -/
def exShort : DecoderState :=
  { initialState with
      state := .READ_DATA
      bits_read_in_byte := 9
      bytes_read := 2 }

/-- A break-detection state that has already seen 9 consecutive low
samples. -/
def exBreak9 : DecoderState :=
  { initialState with low_bits_counter := 9 }

/-! ### Helper lemmas -/

theorem maybeService_state (s : DecoderState) :
    (maybeServiceRxRequest s).state = s.state := by
  unfold maybeServiceRxRequest incrementTailFrameBuffer
  split <;> rfl

theorem maybeService_error (s : DecoderState) :
    (maybeServiceRxRequest s).error_flag = s.error_flag := by
  unfold maybeServiceRxRequest incrementTailFrameBuffer
  split <;> rfl

theorem maybeService_head (s : DecoderState) :
    (maybeServiceRxRequest s).head_frame_buffer = s.head_frame_buffer := by
  unfold maybeServiceRxRequest incrementTailFrameBuffer
  split <;> rfl

theorem maybeService_bufs (s : DecoderState) :
    (maybeServiceRxRequest s).rx_frame_buffers = s.rx_frame_buffers := by
  unfold maybeServiceRxRequest incrementTailFrameBuffer
  split <;> rfl

/-! ### C10 -/

/-- C10: when the hand-off readiness flag is clear, `readNextFrame` reports
no frame and returns the state (hand-off slot, readiness flag, ring buffer,
indices, error flag) entirely unchanged; the caller-supplied buffer is not
written (the returned option is `none`). -/
theorem c10_readNextFrame_empty_noop (s : DecoderState)
    (h : s.request_buffer_has_data = false) :
    readNextFrame s = (none, s) := by
  unfold readNextFrame
  rw [h]
  simp

theorem c10_witness :
    initialState.request_buffer_has_data = false ∧
    readNextFrame initialState = (none, initialState) :=
  ⟨rfl, c10_readNextFrame_empty_noop initialState rfl⟩

end lin_decoder

namespace lin_decoder

/-! ### C5 -/

/-- C5: every ISR invocation ends with exactly one hand-off attempt; when
the hand-off slot is empty and the ring buffer is non-empty, the frame at
`tail` is copied into the hand-off slot, `tail` advances by one modulo 8,
and the slot is marked ready; in every other case the hand-off slot, its
readiness flag, and `tail` are unchanged. -/
theorem c5_handoff_attempt :
    (∀ (s : DecoderState) (i : IsrInput), isr s i = maybeServiceRxRequest (isrBody s i)) ∧
    (∀ s : DecoderState, s.request_buffer_has_data = false →
      s.tail_frame_buffer ≠ s.head_frame_buffer → s.tail_frame_buffer < 8 →
      (maybeServiceRxRequest s).request_buffer = s.rx_frame_buffers s.tail_frame_buffer ∧
      (maybeServiceRxRequest s).request_buffer_has_data = true ∧
      (maybeServiceRxRequest s).tail_frame_buffer = (s.tail_frame_buffer + 1) % 8 ∧
      (maybeServiceRxRequest s).head_frame_buffer = s.head_frame_buffer ∧
      (maybeServiceRxRequest s).rx_frame_buffers = s.rx_frame_buffers) ∧
    (∀ s : DecoderState,
      s.request_buffer_has_data = true ∨ s.tail_frame_buffer = s.head_frame_buffer →
      (maybeServiceRxRequest s).request_buffer = s.request_buffer ∧
      (maybeServiceRxRequest s).request_buffer_has_data = s.request_buffer_has_data ∧
      (maybeServiceRxRequest s).tail_frame_buffer = s.tail_frame_buffer) := by
  refine ⟨fun s i => rfl, fun s h1 h2 h3 => ?_, fun s h => ?_⟩
  · unfold maybeServiceRxRequest incrementTailFrameBuffer
    rw [if_pos ⟨h1, h2⟩]
    refine ⟨rfl, rfl, ?_, rfl, rfl⟩
    show (if s.tail_frame_buffer + 1 ≥ kMaxFrameBuffers then 0 else s.tail_frame_buffer + 1) =
      (s.tail_frame_buffer + 1) % 8
    unfold kMaxFrameBuffers
    split_ifs with h4 <;> omega
  · unfold maybeServiceRxRequest
    rw [if_neg]
    · exact ⟨rfl, rfl, rfl⟩
    · rcases h with h | h <;> simp [h]

theorem c5_witness :
    (isr initialState ⟨true, false, false⟩ =
      maybeServiceRxRequest (isrBody initialState ⟨true, false, false⟩)) ∧
    ((maybeServiceRxRequest exQueueOne).request_buffer =
        exQueueOne.rx_frame_buffers exQueueOne.tail_frame_buffer ∧
      (maybeServiceRxRequest exQueueOne).request_buffer_has_data = true ∧
      (maybeServiceRxRequest exQueueOne).tail_frame_buffer =
        (exQueueOne.tail_frame_buffer + 1) % 8 ∧
      (maybeServiceRxRequest exQueueOne).head_frame_buffer = exQueueOne.head_frame_buffer ∧
      (maybeServiceRxRequest exQueueOne).rx_frame_buffers = exQueueOne.rx_frame_buffers) ∧
    (maybeServiceRxRequest initialState).request_buffer = initialState.request_buffer ∧
    (maybeServiceRxRequest initialState).request_buffer_has_data =
      initialState.request_buffer_has_data ∧
    (maybeServiceRxRequest initialState).tail_frame_buffer =
      initialState.tail_frame_buffer :=
  ⟨c5_handoff_attempt.1 initialState ⟨true, false, false⟩,
   c5_handoff_attempt.2.1 exQueueOne rfl (by decide) (by decide),
   c5_handoff_attempt.2.2 initialState (Or.inr rfl)⟩

end lin_decoder

namespace lin_decoder

/-! ### C2 -/

theorem isrBody_error_mono (s : DecoderState) (i : IsrInput) (h : s.error_flag = true) :
    (isrBody s i).error_flag = true := by
  unfold isrBody
  cases hs : s.state
  · unfold stateDetectBreakHandleIsr stateReadDataEnter
    dsimp only
    split_ifs <;> simp [h]
  · unfold stateReadDataHandleIsr stateDetectBreakEnter setErrorFlag
      incrementHeadFrameBuffer incrementTailFrameBuffer
    dsimp only
    split_ifs <;> simp [h]

/-- C2: every anomaly (start-bit violation, stop-bit violation,
byte-capacity overflow, frame-too-short, queue overrun) sets the sticky
error flag and, within the same ISR invocation, resets the receiver state
to break detection; the flag survives every subsequent ISR invocation and
`readNextFrame`, and only `clearErrors` resets it. -/
theorem c2_anomaly_reset_sticky :
    (∀ (s : DecoderState) (i : IsrInput), anomalyInput s i →
      (isr s i).error_flag = true ∧ (isr s i).state = .DETECT_BREAK) ∧
    (∀ (s : DecoderState) (i : IsrInput), s.error_flag = true →
      (isr s i).error_flag = true) ∧
    (∀ s : DecoderState, (readNextFrame s).2.error_flag = s.error_flag) ∧
    (∀ s : DecoderState, hasErrors (clearErrors s) = false) := by
  refine ⟨?_, ?_, ?_, fun s => rfl⟩
  · rintro s i ⟨hrd, hcase⟩
    unfold isr
    rw [maybeService_error, maybeService_state]
    unfold isrBody
    rw [hrd]
    dsimp only
    rcases hcase with ⟨hb, hr⟩ | ⟨hb, hr⟩ | ⟨hb, hr, hw, hcap⟩ | ⟨hb, hr, hw, hshort⟩ |
      ⟨hb, hr, hw, hlen, hfull⟩
    · simp [stateReadDataHandleIsr, hb, hr, stateDetectBreakEnter, setErrorFlag]
    · have h0 : ¬s.bits_read_in_byte = 0 := by omega
      have h8 : ¬s.bits_read_in_byte ≤ 8 := by omega
      simp [stateReadDataHandleIsr, h0, h8, hr, stateDetectBreakEnter, setErrorFlag]
    · have h0 : ¬s.bits_read_in_byte = 0 := by omega
      have h8 : ¬s.bits_read_in_byte ≤ 8 := by omega
      unfold kMaxBytes at hcap
      simp [stateReadDataHandleIsr, h0, h8, hr, hw, appendByte, kMaxBytes,
        stateDetectBreakEnter, setErrorFlag, hcap]
    · have h0 : ¬s.bits_read_in_byte = 0 := by omega
      have h8 : ¬s.bits_read_in_byte ≤ 8 := by omega
      simp [stateReadDataHandleIsr, h0, h8, hr, hw, stateDetectBreakEnter, setErrorFlag,
        hshort]
    · have h0 : ¬s.bits_read_in_byte = 0 := by omega
      have h8 : ¬s.bits_read_in_byte ≤ 8 := by omega
      have hns : ¬(s.bytes_read + 1 < 4) := by omega
      unfold kMaxFrameBuffers at hfull
      have hfull2 : s.tail_frame_buffer =
          (if 7 ≤ s.head_frame_buffer then 0 else s.head_frame_buffer + 1) := by
        rw [← hfull]
        split_ifs <;> omega
      simp [stateReadDataHandleIsr, h0, h8, hr, hw, hns, incrementHeadFrameBuffer,
        incrementTailFrameBuffer, kMaxFrameBuffers, hfull2, stateDetectBreakEnter,
        setErrorFlag]
  · intro s i h
    unfold isr
    rw [maybeService_error]
    exact isrBody_error_mono s i h
  · intro s
    unfold readNextFrame
    split <;> rfl

theorem c2_witness :
    ((isr exReadData ⟨true, false, false⟩).error_flag = true ∧
      (isr exReadData ⟨true, false, false⟩).state = .DETECT_BREAK) ∧
    (isr (setErrorFlag initialState) ⟨true, false, false⟩).error_flag = true :=
  ⟨c2_anomaly_reset_sticky.1 exReadData ⟨true, false, false⟩ ⟨rfl, Or.inl ⟨rfl, rfl⟩⟩,
   c2_anomaly_reset_sticky.2.1 (setErrorFlag initialState) ⟨true, false, false⟩ rfl⟩

end lin_decoder

namespace lin_decoder

/-! ### C6 -/

theorem nextIdx_ne (h : Nat) : (if h + 1 ≥ kMaxFrameBuffers then 0 else h + 1) ≠ h := by
  unfold kMaxFrameBuffers
  split_ifs <;> omega

theorem queueList_eq_of_agree (s t : DecoderState)
    (hh : t.head_frame_buffer = s.head_frame_buffer)
    (ht : t.tail_frame_buffer = s.tail_frame_buffer)
    (hb : ∀ k, k ≠ s.head_frame_buffer → t.rx_frame_buffers k = s.rx_frame_buffers k) :
    queueList t = queueList s := by
  unfold queueList queueLen
  rw [hh, ht]
  apply List.map_congr_left
  intro a ha
  rw [List.mem_range] at ha
  apply hb
  omega

/-- C6: when the inter-byte wait times out with fewer than 4 bytes received
(the discard check sees `bytes_read < 4`), the FrameReader step sets the
error flag, leaves `head`, `tail`, the queued frames and the hand-off slot
untouched (so the discarded frame is never enqueued and never surfaces via
`readNextFrame`), and transitions back to break detection. -/
theorem c6_short_frame_discarded (s : DecoderState) (i : IsrInput)
    (hrd : s.state = .READ_DATA) (hbit : 9 ≤ s.bits_read_in_byte)
    (hr : i.rxHigh = true) (hw : i.waitLowOk = false)
    (hshort : s.bytes_read + 1 < 4) :
    (isrBody s i).error_flag = true ∧
    (isrBody s i).state = .DETECT_BREAK ∧
    (isrBody s i).head_frame_buffer = s.head_frame_buffer ∧
    (isrBody s i).tail_frame_buffer = s.tail_frame_buffer ∧
    (isrBody s i).request_buffer_has_data = s.request_buffer_has_data ∧
    (isrBody s i).request_buffer = s.request_buffer ∧
    queueList (isrBody s i) = queueList s := by
  have h0 : ¬s.bits_read_in_byte = 0 := by omega
  have h8p : ¬s.bits_read_in_byte ≤ 8 := by omega
  have hstep : isrBody s i = stateDetectBreakEnter (setErrorFlag
      { s with
          rx_frame_buffers := fun k =>
            if k = s.head_frame_buffer then
              appendByte (s.rx_frame_buffers s.head_frame_buffer) s.byte_buffer
            else s.rx_frame_buffers k,
          bytes_read := s.bytes_read + 1,
          bits_read_in_byte := 0 }) := by
    unfold isrBody
    rw [hrd]
    simp [stateReadDataHandleIsr, h0, h8p, hr, hw, hshort]
    rw [hrd]
  rw [hstep]
  refine ⟨rfl, rfl, rfl, rfl, rfl, rfl, ?_⟩
  apply queueList_eq_of_agree
  · rfl
  · rfl
  · intro k hk
    simp [stateDetectBreakEnter, setErrorFlag, hk]

theorem c6_witness :
    (isrBody exShort ⟨true, false, false⟩).error_flag = true ∧
    (isrBody exShort ⟨true, false, false⟩).state = .DETECT_BREAK ∧
    (isrBody exShort ⟨true, false, false⟩).head_frame_buffer = exShort.head_frame_buffer ∧
    (isrBody exShort ⟨true, false, false⟩).tail_frame_buffer = exShort.tail_frame_buffer ∧
    (isrBody exShort ⟨true, false, false⟩).request_buffer_has_data =
      exShort.request_buffer_has_data ∧
    (isrBody exShort ⟨true, false, false⟩).request_buffer = exShort.request_buffer ∧
    queueList (isrBody exShort ⟨true, false, false⟩) = queueList exShort :=
  c6_short_frame_discarded exShort ⟨true, false, false⟩ rfl (by decide) rfl rfl (by decide)

end lin_decoder

namespace lin_decoder

/-! ### C3 -/

theorem isrBody_queue_frozen (t : DecoderState) (i : IsrInput)
    (hnc : ¬completesFrameInput t i) :
    (isrBody t i).head_frame_buffer = t.head_frame_buffer ∧
    (isrBody t i).tail_frame_buffer = t.tail_frame_buffer ∧
    (isrBody t i).request_buffer_has_data = t.request_buffer_has_data := by
  unfold isrBody
  cases hs : t.state
  · unfold stateDetectBreakHandleIsr stateReadDataEnter
    dsimp only
    split_ifs <;> exact ⟨rfl, rfl, rfl⟩
  · unfold stateReadDataHandleIsr stateDetectBreakEnter setErrorFlag
      incrementHeadFrameBuffer incrementTailFrameBuffer
    dsimp only
    split_ifs <;> try exact ⟨rfl, rfl, rfl⟩
    all_goals
      exact absurd ⟨hs, by omega, by simp_all, by assumption, by omega⟩ hnc

/-- C3: when a frame with at least 4 bytes completes while the ring buffer
is empty and the hand-off slot is free, the same ISR invocation moves the
completed frame into the hand-off slot; the first `readNextFrame` call
returns exactly that frame, and any further call before another frame
completes returns none (no ISR invocation that does not complete a frame
can refill the emptied hand-off slot). -/
theorem c3_frame_delivered_exactly_once :
    (∀ (s : DecoderState) (i : IsrInput),
      s.tail_frame_buffer = s.head_frame_buffer →
      s.request_buffer_has_data = false →
      completesFrameInput s i →
      (readNextFrame (isr s i)).1 =
        some (appendByte (s.rx_frame_buffers s.head_frame_buffer) s.byte_buffer) ∧
      (readNextFrame (readNextFrame (isr s i)).2).1 = none ∧
      (readNextFrame (isr s i)).2.request_buffer_has_data = false ∧
      (readNextFrame (isr s i)).2.tail_frame_buffer =
        (readNextFrame (isr s i)).2.head_frame_buffer) ∧
    (∀ (t : DecoderState) (i : IsrInput),
      t.request_buffer_has_data = false →
      t.tail_frame_buffer = t.head_frame_buffer →
      ¬completesFrameInput t i →
      (isr t i).request_buffer_has_data = false ∧
      (isr t i).tail_frame_buffer = (isr t i).head_frame_buffer ∧
      (readNextFrame (isr t i)).1 = none) := by
  constructor
  · rintro s i hqe hflag ⟨hrd, hbit, hr, hw, hlen⟩
    have h0 : ¬s.bits_read_in_byte = 0 := by omega
    have h8p : ¬s.bits_read_in_byte ≤ 8 := by omega
    have hns : ¬(s.bytes_read + 1 < 4) := by omega
    have hne : (if s.head_frame_buffer + 1 ≥ kMaxFrameBuffers then 0
        else s.head_frame_buffer + 1) ≠ s.head_frame_buffer := nextIdx_ne _
    have hne2 : s.head_frame_buffer ≠ (if s.head_frame_buffer + 1 ≥ kMaxFrameBuffers then 0
        else s.head_frame_buffer + 1) := hne.symm
    unfold isr isrBody
    rw [hrd]
    dsimp only
    simp [stateReadDataHandleIsr, h0, h8p, hr, hw, hns, incrementHeadFrameBuffer,
      incrementTailFrameBuffer, maybeServiceRxRequest, stateDetectBreakEnter,
      readNextFrame, hqe, hflag, hne, hne2]
  · intro t i hflag hqe hnc
    obtain ⟨hh, ht, hf⟩ := isrBody_queue_frozen t i hnc
    have hnoop : maybeServiceRxRequest (isrBody t i) = isrBody t i := by
      unfold maybeServiceRxRequest
      rw [if_neg]
      rintro ⟨-, hne⟩
      exact hne (ht.trans (hqe.trans hh.symm))
    unfold isr
    rw [hnoop]
    refine ⟨hf.trans hflag, ?_, ?_⟩
    · rw [ht, hh, hqe]
    · unfold readNextFrame
      rw [hf.trans hflag]
      simp

theorem c3_witness :
    ((readNextFrame (isr exFrameEnd ⟨true, false, false⟩)).1 =
      some (appendByte (exFrameEnd.rx_frame_buffers exFrameEnd.head_frame_buffer)
        exFrameEnd.byte_buffer) ∧
    (readNextFrame (readNextFrame (isr exFrameEnd ⟨true, false, false⟩)).2).1 = none ∧
    (readNextFrame (isr exFrameEnd ⟨true, false, false⟩)).2.request_buffer_has_data = false ∧
    (readNextFrame (isr exFrameEnd ⟨true, false, false⟩)).2.tail_frame_buffer =
      (readNextFrame (isr exFrameEnd ⟨true, false, false⟩)).2.head_frame_buffer) ∧
    ((isr initialState ⟨true, false, false⟩).request_buffer_has_data = false ∧
    (isr initialState ⟨true, false, false⟩).tail_frame_buffer =
      (isr initialState ⟨true, false, false⟩).head_frame_buffer ∧
    (readNextFrame (isr initialState ⟨true, false, false⟩)).1 = none) :=
  ⟨c3_frame_delivered_exactly_once.1 exFrameEnd ⟨true, false, false⟩ rfl rfl
      ⟨rfl, by decide, rfl, rfl, by decide⟩,
   c3_frame_delivered_exactly_once.2 initialState ⟨true, false, false⟩ rfl rfl
      (fun h => absurd h.1 (by decide))⟩

end lin_decoder

namespace lin_decoder

/-! ### C4 -/

/-- C4: when a frame completes while the ring buffer already holds 7 queued
frames and the hand-off slot is occupied (8 completed frames unread), the
enqueue advances `head` onto `tail`, sets the error flag, and advances
`tail` as well, so exactly the oldest queued frame is dropped: the queue
afterwards is the old queue minus its first element plus the new frame, in
FIFO order by identity. -/
theorem c4_overrun_evicts_oldest (s : DecoderState) (i : IsrInput)
    (hrd : s.state = .READ_DATA) (hbit : 9 ≤ s.bits_read_in_byte)
    (hr : i.rxHigh = true) (hw : i.waitLowOk = false) (hlen : 4 ≤ s.bytes_read + 1)
    (h8 : s.head_frame_buffer < 8) (t8 : s.tail_frame_buffer < 8)
    (hocc : s.request_buffer_has_data = true)
    (hfull : (if s.head_frame_buffer + 1 ≥ kMaxFrameBuffers then 0
      else s.head_frame_buffer + 1) = s.tail_frame_buffer) :
    (isr s i).error_flag = true ∧
    (isr s i).head_frame_buffer = s.tail_frame_buffer ∧
    (isr s i).tail_frame_buffer = (s.tail_frame_buffer + 1) % 8 ∧
    queueList (isr s i) =
      (queueList s).drop 1 ++
        [appendByte (s.rx_frame_buffers s.head_frame_buffer) s.byte_buffer] := by
  have h0 : ¬s.bits_read_in_byte = 0 := by omega
  have h8p : ¬s.bits_read_in_byte ≤ 8 := by omega
  have hns : ¬(s.bytes_read + 1 < 4) := by omega
  have hab : (s.head_frame_buffer + 1) % 8 = s.tail_frame_buffer := by
    rw [← hfull]
    unfold kMaxFrameBuffers
    split_ifs <;> omega
  have hfull2 : (if 7 ≤ s.head_frame_buffer then 0 else s.head_frame_buffer + 1) =
      s.tail_frame_buffer := by
    rw [← hab]
    split_ifs <;> omega
  have htl2 : (if 7 ≤ s.tail_frame_buffer then 0 else s.tail_frame_buffer + 1) =
      (s.tail_frame_buffer + 1) % 8 := by
    split_ifs <;> omega
  have hchar : isr s i = { s with
      rx_frame_buffers := fun k =>
        if k = s.head_frame_buffer then
          appendByte (s.rx_frame_buffers s.head_frame_buffer) s.byte_buffer
        else s.rx_frame_buffers k,
      head_frame_buffer := s.tail_frame_buffer,
      tail_frame_buffer := (s.tail_frame_buffer + 1) % 8,
      state := .DETECT_BREAK,
      low_bits_counter := 0,
      bytes_read := s.bytes_read + 1,
      bits_read_in_byte := 0,
      error_flag := true } := by
    unfold isr isrBody
    rw [hrd]
    dsimp only
    simp [stateReadDataHandleIsr, setErrorFlag, h0, h8p, hr, hw, hns,
      incrementHeadFrameBuffer, incrementTailFrameBuffer, stateDetectBreakEnter,
      maybeServiceRxRequest, kMaxFrameBuffers, hocc, hfull2, htl2]
    try rw [hrd]
  rw [hchar]
  refine ⟨rfl, rfl, rfl, ?_⟩
  clear hchar hrd hbit hr hw hlen hocc hfull h0 h8p hns hfull2 htl2
  obtain ⟨a, ha⟩ : ∃ a, s.head_frame_buffer = a := ⟨_, rfl⟩
  obtain ⟨b, hb⟩ : ∃ b, s.tail_frame_buffer = b := ⟨_, rfl⟩
  rw [ha] at hab h8
  rw [hb] at hab t8
  rw [ha, hb]
  interval_cases a <;> interval_cases b <;>
    simp_all [queueList, queueLen, show List.range 7 = [0, 1, 2, 3, 4, 5, 6] from rfl]

theorem c4_witness :
    (isr exFull ⟨true, false, false⟩).error_flag = true ∧
    (isr exFull ⟨true, false, false⟩).head_frame_buffer = exFull.tail_frame_buffer ∧
    (isr exFull ⟨true, false, false⟩).tail_frame_buffer =
      (exFull.tail_frame_buffer + 1) % 8 ∧
    queueList (isr exFull ⟨true, false, false⟩) =
      (queueList exFull).drop 1 ++
        [appendByte (exFull.rx_frame_buffers exFull.head_frame_buffer)
          exFull.byte_buffer] :=
  c4_overrun_evicts_oldest exFull ⟨true, false, false⟩ rfl (by decide) rfl rfl
    (by decide) (by decide) (by decide) rfl (by decide)

end lin_decoder

namespace lin_decoder

/-! ### C7 -/

theorem lowRunOk_append (c : Nat) (l1 l2 : List Bool)
    (h : lowRunOk c (l1 ++ l2) = true) : lowRunOk c l1 = true := by
  induction l1 generalizing c with
  | nil => rfl
  | cons b rest ih =>
    cases b
    · simp only [List.cons_append, lowRunOk, Bool.and_eq_true, decide_eq_true_eq] at h ⊢
      exact ⟨h.1, ih _ h.2⟩
    · simp only [List.cons_append, lowRunOk] at h ⊢
      exact ih _ h

theorem run_detect_break (inps : List IsrInput) : ∀ s : DecoderState,
    s.state = .DETECT_BREAK →
    s.request_buffer_has_data = false →
    s.tail_frame_buffer = s.head_frame_buffer →
    lowRunOk s.low_bits_counter (inps.map fun i => i.rxHigh) = true →
    (run s inps).state = .DETECT_BREAK ∧
    (run s inps).request_buffer_has_data = false ∧
    (run s inps).tail_frame_buffer = (run s inps).head_frame_buffer := by
  induction inps with
  | nil => exact fun s h1 h2 h3 _ => ⟨h1, h2, h3⟩
  | cons i rest ih =>
    intro s h1 h2 h3 h4
    cases hr : i.rxHigh
    · rw [List.map_cons, hr] at h4
      simp only [lowRunOk, Bool.and_eq_true, decide_eq_true_eq] at h4
      have hbody : isrBody s i = { s with low_bits_counter := s.low_bits_counter + 1 } := by
        unfold isrBody
        rw [h1]
        dsimp only
        simp [stateDetectBreakHandleIsr, hr, h4.1, h1]
      have hstep : isr s i = { s with low_bits_counter := s.low_bits_counter + 1 } := by
        unfold isr
        rw [hbody]
        unfold maybeServiceRxRequest
        rw [if_neg]
        rintro ⟨-, hne⟩
        exact hne h3
      have : run s (i :: rest) = run (isr s i) rest := rfl
      rw [this, hstep]
      exact ih _ h1 h2 h3 h4.2
    · rw [List.map_cons, hr] at h4
      simp only [lowRunOk] at h4
      have hbody : isrBody s i = { s with low_bits_counter := 0 } := by
        unfold isrBody
        rw [h1]
        dsimp only
        simp [stateDetectBreakHandleIsr, hr, h1]
      have hstep : isr s i = { s with low_bits_counter := 0 } := by
        unfold isr
        rw [hbody]
        unfold maybeServiceRxRequest
        rw [if_neg]
        rintro ⟨-, hne⟩
        exact hne h3
      have : run s (i :: rest) = run (isr s i) rest := rfl
      rw [this, hstep]
      exact ih _ h1 h2 h3 h4

/-- C7: starting from a break-detection state with empty queue and empty
hand-off slot, any sample sequence that never drives the consecutive-low
counter to the break threshold 10 (for a zeroed counter: no 10 consecutive
low samples) keeps the receiver in break detection after every step — it
never enters data reception and `readNextFrame` keeps returning none after
every prefix of the sequence. -/
theorem c7_no_break_no_frame (inps pre suf : List IsrInput) (s : DecoderState)
    (hsplit : inps = pre ++ suf)
    (h1 : s.state = .DETECT_BREAK) (h2 : s.request_buffer_has_data = false)
    (h3 : s.tail_frame_buffer = s.head_frame_buffer)
    (h4 : lowRunOk s.low_bits_counter (inps.map fun i => i.rxHigh) = true) :
    (run s pre).state = .DETECT_BREAK ∧
    (readNextFrame (run s pre)).1 = none := by
  subst hsplit
  rw [List.map_append] at h4
  obtain ⟨ha, hb, -⟩ := run_detect_break pre s h1 h2 h3 (lowRunOk_append _ _ _ h4)
  refine ⟨ha, ?_⟩
  unfold readNextFrame
  rw [hb]
  simp

theorem c7_witness :
    (run initialState (List.replicate 9 ⟨false, false, false⟩)).state = .DETECT_BREAK ∧
    (readNextFrame (run initialState (List.replicate 9 ⟨false, false, false⟩))).1 = none :=
  c7_no_break_no_frame
    (List.replicate 9 ⟨false, false, false⟩ ++ [⟨true, false, false⟩])
    (List.replicate 9 ⟨false, false, false⟩) [⟨true, false, false⟩]
    initialState rfl rfl rfl rfl (by decide)

end lin_decoder

namespace lin_decoder

/-! ### C9 -/

theorem slotInv_init : SlotInv (init initialState) := by
  refine ⟨fun k => ⟨?_, ?_⟩, ?_, ?_, ?_⟩ <;>
    simp [init, initialState, initBuffers, stateDetectBreakEnter, clearErrors, SlotInv]

theorem slotInv_maybeService (s : DecoderState) (h : SlotInv s) :
    SlotInv (maybeServiceRxRequest s) := by
  obtain ⟨hk, hq1, hq2, hhd⟩ := h
  unfold maybeServiceRxRequest incrementTailFrameBuffer
  split
  · exact ⟨hk, (hk _).1, (hk _).2, hhd⟩
  · exact ⟨hk, hq1, hq2, hhd⟩

theorem slotInv_readNextFrame (s : DecoderState) (h : SlotInv s) :
    SlotInv (readNextFrame s).2 := by
  obtain ⟨hk, hq1, hq2, hhd⟩ := h
  unfold readNextFrame
  split <;> exact ⟨hk, hq1, hq2, hhd⟩

theorem slotInv_clearErrors (s : DecoderState) (h : SlotInv s) :
    SlotInv (clearErrors s) := by
  obtain ⟨hk, hq1, hq2, hhd⟩ := h
  exact ⟨hk, hq1, hq2, hhd⟩

theorem slotInv_isrBody (s : DecoderState) (i : IsrInput) (h : SlotInv s) :
    SlotInv (isrBody s i) := by
  obtain ⟨hk, hq1, hq2, hhd⟩ := h
  unfold isrBody
  cases hs : s.state
  · unfold stateDetectBreakHandleIsr stateReadDataEnter
    dsimp only
    split_ifs
    · exact ⟨hk, hq1, hq2, fun h' => MachineState.noConfusion (hs.symm.trans h')⟩
    · exact ⟨hk, hq1, hq2, fun h' => MachineState.noConfusion (hs.symm.trans h')⟩
    · refine ⟨fun k => ?_, hq1, hq2, fun _ => ?_⟩
      · dsimp only
        by_cases hkh : k = s.head_frame_buffer
        · rw [if_pos hkh]
          exact ⟨Nat.zero_le _, (hk k).2⟩
        · rw [if_neg hkh]
          exact hk k
      · simp
  · unfold stateReadDataHandleIsr stateDetectBreakEnter setErrorFlag
      incrementHeadFrameBuffer incrementTailFrameBuffer appendByte kMaxBytes
    dsimp only
    have hlt : (s.rx_frame_buffers s.head_frame_buffer).num_bytes ≤ 10 := hhd hs
    split_ifs
    all_goals first
      | exact ⟨hk, hq1, hq2, fun h' => MachineState.noConfusion h'⟩
      | exact ⟨hk, hq1, hq2, fun h' => hhd h'⟩
      | (refine ⟨fun k => ?_, hq1, hq2, fun h' => ?_⟩
         · dsimp only
           by_cases hkh : k = s.head_frame_buffer
           · rw [if_pos hkh]
             refine ⟨by dsimp only; omega, ?_⟩
             dsimp only
             rw [List.length_set]
             exact (hk _).2
           · rw [if_neg hkh]
             exact hk k
         · first
           | exact MachineState.noConfusion h'
           | exact absurd rfl (by assumption)
           | (dsimp only at *
              simp
              omega))

theorem slotInv_isr (s : DecoderState) (i : IsrInput) (h : SlotInv s) :
    SlotInv (isr s i) :=
  slotInv_maybeService _ (slotInv_isrBody s i h)

end lin_decoder

namespace lin_decoder

/-- C9: in every reachable state, every frame slot (the 8 ring slots, given
by any index, and the hand-off slot) holds `num_bytes ≤ 11` in an 11-entry
byte array, and whenever the receiver is in data reception the slot being
filled has `num_bytes < kMaxBytes`; hence the unguarded append in the
stop-bit branch always writes at an index `< 11`, inside the array. -/
theorem c9_append_in_bounds (s : DecoderState) (hs : Reachable s) :
    (∀ k, (s.rx_frame_buffers k).num_bytes ≤ 11 ∧
      (s.rx_frame_buffers k).bytes.length = 11) ∧
    s.request_buffer.num_bytes ≤ 11 ∧ s.request_buffer.bytes.length = 11 ∧
    (s.state = .READ_DATA →
      (s.rx_frame_buffers s.head_frame_buffer).num_bytes < kMaxBytes) := by
  have hinv : SlotInv s := by
    induction hs with
    | base => exact slotInv_init
    | isr_step hr i ih => exact slotInv_isr _ i ih
    | read_step hr ih => exact slotInv_readNextFrame _ ih
    | clear_step hr ih => exact slotInv_clearErrors _ ih
  obtain ⟨hk, hq1, hq2, hhd⟩ := hinv
  refine ⟨hk, hq1, hq2, fun h' => ?_⟩
  unfold kMaxBytes
  have := hhd h'
  omega

theorem c9_witness :
    (∀ k, ((init initialState).rx_frame_buffers k).num_bytes ≤ 11 ∧
      ((init initialState).rx_frame_buffers k).bytes.length = 11) ∧
    (init initialState).request_buffer.num_bytes ≤ 11 ∧
    (init initialState).request_buffer.bytes.length = 11 ∧
    ((init initialState).state = .READ_DATA →
      ((init initialState).rx_frame_buffers
        (init initialState).head_frame_buffer).num_bytes < kMaxBytes) :=
  c9_append_in_bounds (init initialState) Reachable.base

end lin_decoder

namespace lin_decoder

/-! ### C1 -/

theorem mod_two_pow_succ_false (b j : Nat) (h : b.testBit j = false) :
    b % 2 ^ (j + 1) = b % 2 ^ j := by
  apply Nat.eq_of_testBit_eq
  intro i
  rw [Nat.testBit_mod_two_pow, Nat.testBit_mod_two_pow]
  rcases lt_trichotomy i j with hij | hij | hij
  · have h1 : decide (i < j + 1) = true := by simp only [decide_eq_true_eq]; omega
    have h2 : decide (i < j) = true := by simp only [decide_eq_true_eq]; omega
    rw [h1, h2]
  · subst hij
    have h1 : decide (i < i + 1) = true := by simp
    have h2 : decide (i < i) = false := by simp
    rw [h1, h2, h]
    simp
  · have h1 : decide (i < j + 1) = false := by
      simp only [decide_eq_false_iff_not]; omega
    have h2 : decide (i < j) = false := by
      simp only [decide_eq_false_iff_not]; omega
    rw [h1, h2]

theorem mod_two_pow_succ_true (b j : Nat) (h : b.testBit j = true) :
    b % 2 ^ (j + 1) = b % 2 ^ j ||| 2 ^ j := by
  apply Nat.eq_of_testBit_eq
  intro i
  rw [Nat.testBit_or, Nat.testBit_mod_two_pow, Nat.testBit_mod_two_pow]
  rcases lt_trichotomy i j with hij | hij | hij
  · have h1 : decide (i < j + 1) = true := by simp only [decide_eq_true_eq]; omega
    have h2 : decide (i < j) = true := by simp only [decide_eq_true_eq]; omega
    rw [h1, h2, Nat.testBit_two_pow_of_ne (by omega)]
    simp
  · subst hij
    have h1 : decide (i < i + 1) = true := by simp
    have h2 : decide (i < i) = false := by simp
    rw [h1, h2, h, Nat.testBit_two_pow_self]
    simp
  · have h1 : decide (i < j + 1) = false := by
      simp only [decide_eq_false_iff_not]; omega
    have h2 : decide (i < j) = false := by
      simp only [decide_eq_false_iff_not]; omega
    rw [h1, h2, Nat.testBit_two_pow_of_ne (by omega)]
    simp

theorem readData_data_run (b : Nat) (wl wh : Bool) :
    ∀ (n j : Nat) (t : DecoderState), j + n = 8 →
      t.bits_read_in_byte = j + 1 →
      t.byte_buffer_bit_mask = 2 ^ j % 256 →
      t.byte_buffer = b % 2 ^ j →
      List.foldl stateReadDataHandleIsr t
        ((List.range n).map fun m => (⟨b.testBit (j + m), wl, wh⟩ : IsrInput)) =
      { t with bits_read_in_byte := 9,
               byte_buffer := b % 2 ^ (j + n),
               byte_buffer_bit_mask := 2 ^ (j + n) % 256 } := by
  intro n
  induction n with
  | zero =>
    intro j t hjn hbits hmask hbuf
    simp only [List.range_zero, List.map_nil, List.foldl_nil, Nat.add_zero]
    have hj : j = 8 := by omega
    subst hj
    have hbits9 : t.bits_read_in_byte = 9 := by omega
    rw [← hbits9, ← hbuf, ← hmask]
  | succ n ih =>
    intro j t hjn hbits hmask hbuf
    have hj7 : j ≤ 7 := by omega
    have hpow : (2 : Nat) ^ j < 256 := by
      calc (2 : Nat) ^ j ≤ 2 ^ 7 := Nat.pow_le_pow_right (by norm_num) hj7
      _ < 256 := by norm_num
    rw [List.range_succ_eq_map, List.map_cons, List.map_map, List.foldl_cons]
    have hstep : stateReadDataHandleIsr t ⟨b.testBit (j + 0), wl, wh⟩ =
        { t with byte_buffer := b % 2 ^ (j + 1),
                 byte_buffer_bit_mask := 2 ^ (j + 1) % 256,
                 bits_read_in_byte := j + 1 + 1 } := by
      unfold stateReadDataHandleIsr
      dsimp only
      rw [if_neg (by omega), if_pos (by omega)]
      rw [hmask, hbuf, hbits]
      have hbuf2 : (if b.testBit (j + 0) = true then b % 2 ^ j ||| 2 ^ j % 256
          else b % 2 ^ j) = b % 2 ^ (j + 1) := by
        rw [Nat.add_zero, Nat.mod_eq_of_lt hpow]
        cases htb : b.testBit j
        · rw [if_neg (by simp [htb]), mod_two_pow_succ_false b j htb]
        · rw [if_pos rfl, mod_two_pow_succ_true b j htb]
      have hmask2 : ((2 ^ j % 256) <<< 1) % 256 = 2 ^ (j + 1) % 256 := by
        rw [Nat.mod_eq_of_lt hpow, Nat.shiftLeft_eq, pow_succ 2 j]
      rw [hbuf2, hmask2]
    rw [hstep]
    have hlist : ((List.range n).map
          ((fun m => (⟨b.testBit (j + m), wl, wh⟩ : IsrInput)) ∘ Nat.succ)) =
        (List.range n).map fun m => (⟨b.testBit (j + 1 + m), wl, wh⟩ : IsrInput) := by
      apply List.map_congr_left
      intro m _
      have hidx : j + Nat.succ m = j + 1 + m := by omega
      simp only [Function.comp]
      rw [hidx]
    rw [hlist]
    rw [ih (j + 1) _ (by omega) rfl rfl rfl]
    have hidx2 : j + 1 + n = j + (n + 1) := by omega
    rw [hidx2]

theorem readData_stop_slot (t : DecoderState) (i : IsrInput) (hd : Nat)
    (hhd : t.head_frame_buffer = hd)
    (h0 : ¬t.bits_read_in_byte = 0) (h8 : ¬t.bits_read_in_byte ≤ 8)
    (hr : i.rxHigh = true) :
    (stateReadDataHandleIsr t i).rx_frame_buffers hd =
      appendByte (t.rx_frame_buffers hd) t.byte_buffer := by
  subst hhd
  unfold stateReadDataHandleIsr stateDetectBreakEnter setErrorFlag
    incrementHeadFrameBuffer incrementTailFrameBuffer
  dsimp only
  rw [if_neg h0, if_neg h8, if_neg (by simp [hr])]
  split_ifs <;> simp

/-- C1: with the FrameReader at bit position 0, feeding it the 10 samples
encoding a byte `b` — low start bit, the 8 bits of `b` LSB first (high
sample = 1 bit), high stop bit — appends exactly the byte `b` to the
current frame slot: its byte count grows by one, the entry at the old byte
count is `b`, and every other entry of the slot is unchanged. -/
theorem c1_frame_reader_decodes_byte (s : DecoderState) (b : Nat) (wl wh : Bool)
    (hbit : s.bits_read_in_byte = 0) (hb : b < 256)
    (hcap : (s.rx_frame_buffers s.head_frame_buffer).num_bytes ≤ 10)
    (hlen : (s.rx_frame_buffers s.head_frame_buffer).bytes.length = 11) :
    ((runReadData s (byteInputs b wl wh)).rx_frame_buffers
        s.head_frame_buffer).num_bytes =
      (s.rx_frame_buffers s.head_frame_buffer).num_bytes + 1 ∧
    ((runReadData s (byteInputs b wl wh)).rx_frame_buffers
        s.head_frame_buffer).bytes.getD
      (s.rx_frame_buffers s.head_frame_buffer).num_bytes 0 = b ∧
    (∀ j, j ≠ (s.rx_frame_buffers s.head_frame_buffer).num_bytes →
      ((runReadData s (byteInputs b wl wh)).rx_frame_buffers
          s.head_frame_buffer).bytes.getD j 0 =
        (s.rx_frame_buffers s.head_frame_buffer).bytes.getD j 0) := by
  have hsplit : byteInputs b wl wh =
      (⟨false, wl, wh⟩ : IsrInput) ::
        (((List.range 8).map fun m => (⟨b.testBit (0 + m), wl, wh⟩ : IsrInput)) ++
          [(⟨true, wl, wh⟩ : IsrInput)]) := by
    unfold byteInputs byteSamples
    simp only [List.map_cons, List.map_append, List.map_map, List.map_nil]
    congr 1
  rw [hsplit]
  unfold runReadData
  rw [List.foldl_cons, List.foldl_append]
  simp only [List.foldl_cons, List.foldl_nil]
  have e0 : stateReadDataHandleIsr s ⟨false, wl, wh⟩ =
      { s with bits_read_in_byte := 0 + 1, byte_buffer := b % 2 ^ 0,
               byte_buffer_bit_mask := 2 ^ 0 % 256 } := by
    unfold stateReadDataHandleIsr
    dsimp only
    rw [if_pos hbit, if_neg (by simp)]
    rw [hbit]
    simp [Nat.mod_one]
  rw [e0]
  rw [readData_data_run b wl wh 8 0 _ (by omega) rfl rfl rfl]
  rw [readData_stop_slot _ _ _ (by rfl) (by simp) (by simp) (by rfl)]
  dsimp only
  rw [show (2 : Nat) ^ (0 + 8) = 256 from by norm_num, Nat.mod_eq_of_lt hb]
  refine ⟨rfl, ?_, ?_⟩
  · unfold appendByte
    dsimp only
    rw [List.getD_eq_getElem?_getD,
      List.getElem?_set_eq_of_lt _ (by rw [hlen]; omega)]
    rfl
  · intro j hj
    unfold appendByte
    dsimp only
    rw [List.getD_eq_getElem?_getD, List.getElem?_set_ne (Ne.symm hj),
      ← List.getD_eq_getElem?_getD]

theorem c1_witness :
    ((runReadData exReadData (byteInputs 165 false false)).rx_frame_buffers
        exReadData.head_frame_buffer).num_bytes =
      (exReadData.rx_frame_buffers exReadData.head_frame_buffer).num_bytes + 1 ∧
    ((runReadData exReadData (byteInputs 165 false false)).rx_frame_buffers
        exReadData.head_frame_buffer).bytes.getD
      (exReadData.rx_frame_buffers exReadData.head_frame_buffer).num_bytes 0 = 165 ∧
    (∀ j, j ≠ (exReadData.rx_frame_buffers exReadData.head_frame_buffer).num_bytes →
      ((runReadData exReadData (byteInputs 165 false false)).rx_frame_buffers
          exReadData.head_frame_buffer).bytes.getD j 0 =
        (exReadData.rx_frame_buffers exReadData.head_frame_buffer).bytes.getD j 0) :=
  c1_frame_reader_decodes_byte exReadData 165 false false rfl (by decide)
    (by decide) (by decide)

end lin_decoder

namespace lin_decoder

/-! ### C8 -/

/-- C8 (counterexample): at a concrete break-detection state that has seen
9 low samples, the 10th low sample triggers the post-break line-release
wait, yet the ISR's subsequent behaviour is identical whether that wait
detects the transition (`waitHighOk = true`) or times out
(`waitHighOk = false`) — the caller does not branch on this wait's
outcome, contradicting the claim that every busy-wait's timeout outcome is
branched on. -/
theorem c8_counterexample :
    stateDetectBreakHandleIsr exBreak9 ⟨false, false, true⟩ =
      stateDetectBreakHandleIsr exBreak9 ⟨false, false, false⟩ ∧
    (stateDetectBreakHandleIsr exBreak9 ⟨false, false, true⟩).state = .READ_DATA :=
  ⟨rfl, rfl⟩

theorem waitForRxLow_bounded (maxClockTicks : Nat) :
    ∀ obs : List WaitObs, (∃ o ∈ obs, maxClockTicks ≤ o.clockDiff) →
      (waitForRxLow obs maxClockTicks).isSome = true := by
  intro obs
  induction obs with
  | nil =>
    rintro ⟨o, ho, -⟩
    exact absurd ho (List.not_mem_nil o)
  | cons o rest ih =>
    rintro ⟨o2, ho2, hc⟩
    unfold waitForRxLow
    split_ifs with h1 h2
    · rfl
    · rfl
    · apply ih
      rcases List.mem_cons.mp ho2 with rfl | hmem
      · exact absurd hc (by omega)
      · exact ⟨o2, hmem, hc⟩

theorem waitForRxHigh_bounded (maxClockTicks : Nat) :
    ∀ obs : List WaitObs, (∃ o ∈ obs, maxClockTicks ≤ o.clockDiff) →
      (waitForRxHigh obs maxClockTicks).isSome = true := by
  intro obs
  induction obs with
  | nil =>
    rintro ⟨o, ho, -⟩
    exact absurd ho (List.not_mem_nil o)
  | cons o rest ih =>
    rintro ⟨o2, ho2, hc⟩
    unfold waitForRxHigh
    split_ifs with h1 h2
    · rfl
    · rfl
    · apply ih
      rcases List.mem_cons.mp ho2 with rfl | hmem
      · exact absurd hc (by omega)
      · exact ⟨o2, hmem, hc⟩

/-- C8 (amended): the busy-wait loops of the periodic step are bounded —
each returns as soon as the elapsed tick count reaches the explicit
tick-count timeout — but only the post-byte start-bit wait's outcome is
branched on by its caller (its outcome decides frame end vs. continued
reception); the post-break line-release wait's outcome is ignored and the
step behaves identically on detection and on timeout. -/
theorem c8_waits_bounded_postbyte_branch_only :
    (∀ (maxClockTicks : Nat) (obs : List WaitObs),
      (∃ o ∈ obs, maxClockTicks ≤ o.clockDiff) →
      (waitForRxLow obs maxClockTicks).isSome = true) ∧
    (∀ (maxClockTicks : Nat) (obs : List WaitObs),
      (∃ o ∈ obs, maxClockTicks ≤ o.clockDiff) →
      (waitForRxHigh obs maxClockTicks).isSome = true) ∧
    (∀ (s : DecoderState) (r wl wh wh2 : Bool),
      isr s ⟨r, wl, wh⟩ = isr s ⟨r, wl, wh2⟩) ∧
    ((isr exFrameEnd ⟨true, true, false⟩).state = .READ_DATA ∧
      (isr exFrameEnd ⟨true, false, false⟩).state = .DETECT_BREAK) := by
  refine ⟨waitForRxLow_bounded, waitForRxHigh_bounded, ?_, rfl, rfl⟩
  intro s r wl wh wh2
  unfold isr isrBody
  cases s.state <;> rfl

theorem c8_witness :
    (waitForRxLow [⟨true, 300⟩] 255).isSome = true ∧
    (waitForRxHigh [⟨false, 300⟩] 255).isSome = true ∧
    isr initialState ⟨true, false, true⟩ = isr initialState ⟨true, false, false⟩ :=
  ⟨c8_waits_bounded_postbyte_branch_only.1 255 [⟨true, 300⟩]
      ⟨⟨true, 300⟩, by simp, by norm_num⟩,
   c8_waits_bounded_postbyte_branch_only.2.1 255 [⟨false, 300⟩]
      ⟨⟨false, 300⟩, by simp, by norm_num⟩,
   c8_waits_bounded_postbyte_branch_only.2.2.1 initialState true false true false⟩

end lin_decoder
